import Mathlib

/-!
Shallow embedding of the kanji test score server (`main.go`).

The server keeps an append-only `scores` table in a relational backend and
exposes three JSON handlers: `submitScoreHandler` (POST /api/score, validates
and inserts), `leaderboardHandler` (GET /api/leaderboard, a GROUP BY query
with ORDER BY and LIMIT 10) and `recentScoresHandler` (GET /api/recent,
ORDER BY created_at DESC LIMIT 5).

Modelling choices:
* strings are `List Char`; Go `len` on a string counts UTF-8 bytes, embedded
  as `goLen`; `strings.TrimSpace` is `trimSpace` over Go's `unicode.IsSpace`;
* Go `float64` arithmetic is embedded as exact `ℚ` arithmetic;
* the database is a `Store`: a list of rows plus an insertion counter that
  assigns both `id` and `created_at` (server timestamps are monotonically
  increasing in insertion order); `ok := false` models an unreachable
  backend, in which state every statement errors;
* the SQL queries are given their standard semantics as list functions;
* JSON values are the inductive `Json`; a Go slice built by `append` from a
  nil slice is nil when empty, and `encoding/json` encodes a nil slice as
  JSON `null`, captured by `encodeNilSlice`.
-/

/-- Go `unicode.IsSpace`: the Unicode White_Space code points. -/
def goIsSpace (c : Char) : Bool :=
  decide ((0x9 ≤ c.toNat ∧ c.toNat ≤ 0xD) ∨ c.toNat = 0x20 ∨ c.toNat = 0x85 ∨
    c.toNat = 0xA0 ∨ c.toNat = 0x1680 ∨ (0x2000 ≤ c.toNat ∧ c.toNat ≤ 0x200A) ∨
    c.toNat = 0x2028 ∨ c.toNat = 0x2029 ∨ c.toNat = 0x202F ∨ c.toNat = 0x205F ∨
    c.toNat = 0x3000)

/-- Go `strings.TrimSpace`: drop leading and trailing white-space runes. -/
def trimSpace (s : List Char) : List Char :=
  ((s.dropWhile goIsSpace).reverse.dropWhile goIsSpace).reverse

/-- Go `len` on a string: the length of its UTF-8 encoding in bytes. -/
def goLen (s : List Char) : Nat :=
  (s.map Char.utf8Size).sum

/-- One row of the `scores` table (Go struct `Score`); `id` and `created_at`
are assigned by the store at insert time. -/
structure ScoreRecord where
  id : Nat
  name : List Char
  score : Int
  total : Int
  percent : ℚ
  ranges : List Char
  createdAt : Nat
deriving Repr, DecidableEq

/-- The database state. `ok = false` models a backend that is unreachable
(as after a failed `initDB`): every subsequent statement returns an error.
`nextId` is the sequence assigning `id` and `created_at`. -/
structure Store where
  ok : Bool
  records : List ScoreRecord
  nextId : Nat
deriving Repr, DecidableEq

/-- Go struct `SubmitScoreRequest` after JSON decoding. -/
structure SubmitScoreRequest where
  name : List Char
  score : Int
  total : Int
  ranges : List Char
deriving Repr, DecidableEq

/-- A well-formed JSON object body for POST /api/score: each of the four
fields may be absent (`none`). -/
structure SubmitFields where
  name : Option (List Char)
  score : Option Int
  total : Option Int
  ranges : Option (List Char)
deriving Repr, DecidableEq

/-- `encoding/json` decoding into `SubmitScoreRequest`: a field absent from
the body keeps its Go zero value (0 for int, empty for string). -/
def decodeSubmit (f : SubmitFields) : SubmitScoreRequest :=
  { name := f.name.getD []
    score := f.score.getD 0
    total := f.total.getD 0
    ranges := f.ranges.getD [] }

/-- The row `submitScoreHandler` inserts: the store assigns `id` and
`created_at` from its sequence. -/
def mkRecord (st : Store) (name : List Char) (req : SubmitScoreRequest)
    (percent : ℚ) : ScoreRecord :=
  ⟨st.nextId, name, req.score, req.total, percent, req.ranges, st.nextId⟩

/-- `submitScoreHandler` (main.go) on a POST request. `body = none` models a
request body that fails JSON decoding. Returns the new store state and the
HTTP status written. -/
def submitScoreHandler (st : Store) (body : Option SubmitFields) : Store × Nat :=
  match body with
  | none => (st, 400)
  | some f =>
    let req := decodeSubmit f
    let name := trimSpace req.name
    if goLen name = 0 ∨ 50 < goLen name then (st, 400)
    else
      let percent : ℚ := if 0 < req.total then (req.score : ℚ) / (req.total : ℚ) * 100 else 0
      if st.ok then
        ({ st with
            records := st.records ++ [mkRecord st name req percent]
            nextId := st.nextId + 1 }, 200)
      else (st, 500)

/-- The distinct names in the table: the GROUP BY keys. -/
def namesOf (rs : List ScoreRecord) : List (List Char) :=
  (rs.map (fun r => r.name)).dedup

/-- The rows of one GROUP BY group. -/
def recordsFor (rs : List ScoreRecord) (n : List Char) : List ScoreRecord :=
  rs.filter (fun r => decide (r.name = n))

/-- `SUM(score)` for one name. -/
def sumScores (rs : List ScoreRecord) (n : List Char) : Int :=
  ((recordsFor rs n).map (fun r => r.score)).sum

/-- `COUNT(*)` for one name. -/
def countName (rs : List ScoreRecord) (n : List Char) : Nat :=
  (recordsFor rs n).length

/-- `AVG(percent)` for one name. -/
def avgPercent (rs : List ScoreRecord) (n : List Char) : ℚ :=
  ((recordsFor rs n).map (fun r => r.percent)).sum / (countName rs n : ℚ)

/-- One output row of the aggregate query, before rank assignment. -/
structure LBRow where
  name : List Char
  total_score : Int
  tests_taken : Nat
  avg_percent : ℚ
deriving Repr, DecidableEq

/-- The aggregate row of one name. -/
def aggRow (rs : List ScoreRecord) (n : List Char) : LBRow :=
  ⟨n, sumScores rs n, countName rs n, avgPercent rs n⟩

/-- `GROUP BY name` with the three aggregates. -/
def aggregate (rs : List ScoreRecord) : List LBRow :=
  (namesOf rs).map (aggRow rs)

/-- `ORDER BY total_score DESC, avg_percent DESC` as a precedence relation:
`lbLE a b` holds when `a` may be listed at or before `b`. -/
def lbLE (a b : LBRow) : Prop :=
  b.total_score < a.total_score ∨
    (a.total_score = b.total_score ∧ b.avg_percent ≤ a.avg_percent)

instance : DecidableRel lbLE := fun a b => by
  unfold lbLE; infer_instance

instance : IsTotal LBRow lbLE where
  total a b := by
    unfold lbLE
    rcases lt_trichotomy a.total_score b.total_score with h | h | h
    · exact Or.inr (Or.inl h)
    · rcases le_total b.avg_percent a.avg_percent with h2 | h2
      · exact Or.inl (Or.inr ⟨h, h2⟩)
      · exact Or.inr (Or.inr ⟨h.symm, h2⟩)
    · exact Or.inl (Or.inl h)

instance : IsTrans LBRow lbLE where
  trans a b c hab hbc := by
    unfold lbLE at *
    rcases hab with h1 | ⟨h1, h1q⟩
    · rcases hbc with h2 | ⟨h2, h2q⟩
      · exact Or.inl (h2.trans h1)
      · exact Or.inl (h2 ▸ h1)
    · rcases hbc with h2 | ⟨h2, h2q⟩
      · exact Or.inl (h1 ▸ h2)
      · exact Or.inr ⟨h1.trans h2, h2q.trans h1q⟩

/-- The SQL query in `leaderboardHandler`: group by name, order by
`total_score DESC, avg_percent DESC`, `LIMIT limit`. -/
def queryAggregate (limit : Nat) (rs : List ScoreRecord) : List LBRow :=
  (List.insertionSort lbLE (aggregate rs)).take limit

/-- Go struct `LeaderboardEntry`. -/
structure LeaderboardEntry where
  rank : Nat
  name : List Char
  total_score : Int
  tests_taken : Nat
  avg_percent : ℚ
deriving Repr, DecidableEq

/-- The scan loop of `leaderboardHandler`: `none` is a row whose `Scan`
fails (logged and skipped by `continue`, without incrementing `rank`),
`some r` a row scanned successfully; ranks are assigned in emission order. -/
def leaderboardLoop : Nat → List (Option LBRow) → List LeaderboardEntry
  | _, [] => []
  | rank, none :: rest => leaderboardLoop rank rest
  | rank, some r :: rest =>
    ⟨rank, r.name, r.total_score, r.tests_taken, r.avg_percent⟩ ::
      leaderboardLoop (rank + 1) rest

/-- Drop the rank of a leaderboard entry. -/
def LeaderboardEntry.toRow (e : LeaderboardEntry) : LBRow :=
  ⟨e.name, e.total_score, e.tests_taken, e.avg_percent⟩

/-- JSON values. -/
inductive Json where
  | null : Json
  | num (q : ℚ) : Json
  | str (s : List Char) : Json
  | arr (xs : List Json) : Json
  | obj (fields : List (List Char × Json)) : Json
deriving Repr

/-- Whether a JSON value is an array. -/
def Json.isArr : Json → Bool
  | .arr _ => true
  | _ => false

/-- `json.NewEncoder(w).Encode` on a Go slice that was built by `append`
starting from a nil slice: when no element was appended the slice is still
nil, and `encoding/json` encodes a nil slice as JSON `null`, not `[]`. -/
def encodeNilSlice (f : α → Json) (l : List α) : Json :=
  match l with
  | [] => Json.null
  | xs => Json.arr (xs.map f)

/-- JSON encoding of a `LeaderboardEntry` (field tags of the Go struct). -/
def encodeEntry (e : LeaderboardEntry) : Json :=
  Json.obj
    [("rank".toList, Json.num (e.rank : ℚ)),
     ("name".toList, Json.str e.name),
     ("total_score".toList, Json.num (e.total_score : ℚ)),
     ("tests_taken".toList, Json.num (e.tests_taken : ℚ)),
     ("avg_percent".toList, Json.num e.avg_percent)]

/-- The entries `leaderboardHandler` builds when every row scans
successfully. -/
def leaderboardEntries (st : Store) : List LeaderboardEntry :=
  leaderboardLoop 1 ((queryAggregate 10 st.records).map some)

/-- `leaderboardHandler` (main.go) on a GET request: on a reachable backend,
200 with the encoded slice; when `db.Query` errors, a 500 text error (no
JSON body, modelled as `none`). -/
def leaderboardHandler (st : Store) : Nat × Option Json :=
  if st.ok then (200, some (encodeNilSlice encodeEntry (leaderboardEntries st)))
  else (500, none)

/-- `ORDER BY created_at DESC` as a precedence relation. -/
def recentLE (a b : ScoreRecord) : Prop :=
  b.createdAt ≤ a.createdAt

instance : DecidableRel recentLE := fun a b => by
  unfold recentLE; infer_instance

instance : IsTotal ScoreRecord recentLE where
  total a b := le_total b.createdAt a.createdAt

instance : IsTrans ScoreRecord recentLE where
  trans _ _ _ hab hbc := Nat.le_trans hbc hab

/-- The SQL query in `recentScoresHandler`: order newest first, `LIMIT`. -/
def queryRecent (limit : Nat) (rs : List ScoreRecord) : List ScoreRecord :=
  (List.insertionSort recentLE rs).take limit

/-- The scan loop of `recentScoresHandler`: rows whose `Scan` fails are
logged and skipped, the rest are appended in order. -/
def recentLoop : List (Option ScoreRecord) → List ScoreRecord
  | [] => []
  | none :: rest => recentLoop rest
  | some s :: rest => s :: recentLoop rest

/-- `recentScoresHandler` (main.go) on a GET request. -/
def recentScoresHandler (st : Store) : Nat × Option (List ScoreRecord) :=
  if st.ok then (200, some (recentLoop ((queryRecent 5 st.records).map some)))
  else (500, none)

/-- `main` (main.go): a failed `initDB` is only logged (`log.Printf`, not
`log.Fatal`), so startup always completes and the handlers stay registered;
the resulting store is reachable iff the backend was. -/
def startup (dbReachable : Bool) : Store :=
  { ok := dbReachable, records := [], nextId := 0 }

/-- The `/health` handler: 200 `OK` regardless of the store state. -/
def healthHandler (_st : Store) : Nat × List Char :=
  (200, "OK".toList)

/-! ## Helper lemmas about the submit path -/

/-- Validity of a trimmed name as checked by `submitScoreHandler`. -/
def validName (name : List Char) : Prop :=
  ¬(goLen name = 0 ∨ 50 < goLen name)

instance : DecidablePred validName := fun name => by
  unfold validName; infer_instance

lemma submit_rejects_invalid (st : Store) (f : SubmitFields)
    (h : ¬ validName (trimSpace (decodeSubmit f).name)) :
    submitScoreHandler st (some f) = (st, 400) := by
  unfold validName at h
  simp only [submitScoreHandler, not_not.mp h, if_true]

lemma submit_accepts_valid (st : Store) (f : SubmitFields) (hok : st.ok = true)
    (h : validName (trimSpace (decodeSubmit f).name)) :
    submitScoreHandler st (some f) =
      ({ st with
          records := st.records ++
            [mkRecord st (trimSpace (decodeSubmit f).name) (decodeSubmit f)
              (if 0 < (decodeSubmit f).total
               then ((decodeSubmit f).score : ℚ) / ((decodeSubmit f).total : ℚ) * 100
               else 0)]
          nextId := st.nextId + 1 }, 200) := by
  unfold validName at h
  simp only [submitScoreHandler, if_neg h, hok, if_true]

lemma submit_valid_down (st : Store) (f : SubmitFields) (hok : st.ok = false)
    (h : validName (trimSpace (decodeSubmit f).name)) :
    submitScoreHandler st (some f) = (st, 500) := by
  unfold validName at h
  simp only [submitScoreHandler, if_neg h, hok, Bool.false_eq_true, if_false]

lemma submit_status_cases (st : Store) (body : Option SubmitFields) :
    (submitScoreHandler st body).2 = 400 ∨
    (submitScoreHandler st body).2 = 200 ∨
    (submitScoreHandler st body).2 = 500 := by
  match body with
  | none => exact Or.inl rfl
  | some f =>
    by_cases h : validName (trimSpace (decodeSubmit f).name)
    · cases hok : st.ok
      · exact Or.inr (Or.inr (by rw [submit_valid_down st f hok h]))
      · exact Or.inr (Or.inl (by rw [submit_accepts_valid st f hok h]))
    · exact Or.inl (by rw [submit_rejects_invalid st f h])

/-! ## Claims -/

/-- C1: for every accepted submission, the stored percent is
`score / total * 100` when `total > 0` and `0` when `total = 0`; the
division is guarded so it never divides by zero, and no upper clamp is
applied: submitting score 11 out of total 10 stores percent 110 > 100. -/
theorem submit_percent_spec :
    (∀ (st : Store) (f : SubmitFields), st.ok = true →
      (submitScoreHandler st (some f)).2 = 200 →
      ∃ rec : ScoreRecord,
        (submitScoreHandler st (some f)).1.records = st.records ++ [rec] ∧
        rec.score = (decodeSubmit f).score ∧
        rec.total = (decodeSubmit f).total ∧
        rec.percent = (if 0 < (decodeSubmit f).total
          then ((decodeSubmit f).score : ℚ) / ((decodeSubmit f).total : ℚ) * 100
          else 0)) ∧
    (∃ rec : ScoreRecord,
      (submitScoreHandler (startup true)
        (some ⟨some ['A'], some 11, some 10, none⟩)).1.records = [rec] ∧
      rec.total < rec.score ∧ 100 < rec.percent) := by
  constructor
  · intro st f hok h200
    by_cases h : validName (trimSpace (decodeSubmit f).name)
    · rw [submit_accepts_valid st f hok h]
      exact ⟨_, rfl, rfl, rfl, rfl⟩
    · rw [submit_rejects_invalid st f h] at h200
      simp at h200
  · refine ⟨⟨0, ['A'], 11, 10, 110, [], 0⟩, ?_, by decide, by norm_num⟩
    rw [submit_accepts_valid _ _ rfl (by decide)]
    simp only [startup, mkRecord, decodeSubmit]
    norm_num
    decide

/-- C1 witness: the universal part of `submit_percent_spec` applied to a
concrete accepted submission (name `"A"`, score 7, total 10). -/
theorem submit_percent_spec_witness :
    ∃ rec : ScoreRecord,
      (submitScoreHandler (startup true)
        (some ⟨some ['A'], some 7, some 10, none⟩)).1.records =
        (startup true).records ++ [rec] ∧
      rec.score = (decodeSubmit ⟨some ['A'], some 7, some 10, none⟩).score ∧
      rec.total = (decodeSubmit ⟨some ['A'], some 7, some 10, none⟩).total ∧
      rec.percent = (if 0 < (decodeSubmit ⟨some ['A'], some 7, some 10, none⟩).total
        then ((decodeSubmit ⟨some ['A'], some 7, some 10, none⟩).score : ℚ) /
          ((decodeSubmit ⟨some ['A'], some 7, some 10, none⟩).total : ℚ) * 100
        else 0) :=
  submit_percent_spec.1 (startup true) ⟨some ['A'], some 7, some 10, none⟩ rfl
    (by rw [submit_accepts_valid _ _ rfl (by decide)])

/-- C2 (counterexample): the handler's length check is Go `len`, which
counts UTF-8 bytes, not characters. A name of 17 kanji (each 3 UTF-8 bytes,
so 51 bytes but only 17 characters, nothing to trim) is rejected with 400
and nothing is inserted, although its trimmed character count 17 is within
1..50, so the claim "rejects exactly when the trimmed name has length 0 or
more than 50 characters" is false at this input. -/
theorem submit_name_bytes_counterexample :
    submitScoreHandler ⟨true, [], 0⟩
        (some ⟨some (List.replicate 17 '日'), some 5, some 10, none⟩) =
      (⟨true, [], 0⟩, 400) ∧
    (trimSpace (List.replicate 17 '日')).length = 17 ∧
    goLen (trimSpace (List.replicate 17 '日')) = 51 := by
  refine ⟨?_, by decide, by decide⟩
  rw [submit_rejects_invalid _ _ (by decide)]

/-- C2 (amended): submit trims leading and trailing whitespace from the
name and rejects with 400 exactly when the trimmed name's UTF-8 byte
length is 0 or exceeds 50; every accepted submission persists exactly the
trimmed name. -/
theorem submit_name_validation :
    ∀ (st : Store) (f : SubmitFields), st.ok = true →
      (((submitScoreHandler st (some f)).2 = 400 ↔
        (goLen (trimSpace (decodeSubmit f).name) = 0 ∨
          50 < goLen (trimSpace (decodeSubmit f).name))) ∧
      ((submitScoreHandler st (some f)).2 = 200 →
        ∃ rec : ScoreRecord,
          (submitScoreHandler st (some f)).1.records = st.records ++ [rec] ∧
          rec.name = trimSpace (decodeSubmit f).name)) := by
  intro st f hok
  by_cases h : validName (trimSpace (decodeSubmit f).name)
  · rw [submit_accepts_valid st f hok h]
    refine ⟨⟨fun hc => by simp at hc, fun hc => absurd hc h⟩, ?_⟩
    intro _
    exact ⟨_, rfl, rfl⟩
  · rw [submit_rejects_invalid st f h]
    unfold validName at h
    refine ⟨⟨fun _ => not_not.mp h, fun _ => rfl⟩, ?_⟩
    intro hc
    simp at hc

/-- C2 witness: `submit_name_validation` applied to the concrete
submission of name `"  Alice  "`, which is accepted and stored as
`"Alice"`. -/
theorem submit_name_validation_witness :
    ((submitScoreHandler (startup true)
        (some ⟨some "  Alice  ".toList, some 7, some 10, none⟩)).2 = 400 ↔
      (goLen (trimSpace (decodeSubmit ⟨some "  Alice  ".toList, some 7, some 10, none⟩).name) = 0 ∨
        50 < goLen (trimSpace (decodeSubmit ⟨some "  Alice  ".toList, some 7, some 10, none⟩).name))) ∧
    ((submitScoreHandler (startup true)
        (some ⟨some "  Alice  ".toList, some 7, some 10, none⟩)).2 = 200 →
      ∃ rec : ScoreRecord,
        (submitScoreHandler (startup true)
          (some ⟨some "  Alice  ".toList, some 7, some 10, none⟩)).1.records =
          (startup true).records ++ [rec] ∧
        rec.name = trimSpace (decodeSubmit ⟨some "  Alice  ".toList, some 7, some 10, none⟩).name) :=
  submit_name_validation (startup true) ⟨some "  Alice  ".toList, some 7, some 10, none⟩ rfl

/-- C3: every request to POST /api/score that is rejected with 400
(malformed JSON body, or empty/overlong trimmed name) leaves the store
unchanged: no record is inserted. -/
theorem submit_reject_no_insert :
    ∀ (st : Store) (body : Option SubmitFields),
      (submitScoreHandler st body).2 = 400 → (submitScoreHandler st body).1 = st := by
  intro st body h400
  match body with
  | none => rfl
  | some f =>
    by_cases h : validName (trimSpace (decodeSubmit f).name)
    · cases hok : st.ok
      · rw [submit_valid_down st f hok h]
      · rw [submit_accepts_valid st f hok h] at h400
        simp at h400
    · rw [submit_rejects_invalid st f h]

/-- C3 witness: a malformed JSON body on a concrete store is rejected with
400 and the store is unchanged. -/
theorem submit_reject_no_insert_witness :
    (submitScoreHandler ⟨true, [], 5⟩ none).1 = ⟨true, [], 5⟩ :=
  submit_reject_no_insert ⟨true, [], 5⟩ none rfl

/-- C10: a well-formed JSON body that omits score, total and ranges is not
rejected: the decoder defaults the missing integers to 0 and the missing
strings to empty, so a valid name alone yields a persisted record with
score 0, total 0, percent 0; and a submission is rejected with 400
exactly for a malformed JSON body or an invalid trimmed name, never for
absent numeric fields. -/
theorem submit_missing_fields_default :
    (∀ (st : Store) (nm : List Char), st.ok = true →
      validName (trimSpace nm) →
      submitScoreHandler st (some ⟨some nm, none, none, none⟩) =
        ({ st with
            records := st.records ++ [⟨st.nextId, trimSpace nm, 0, 0, 0, [], st.nextId⟩]
            nextId := st.nextId + 1 }, 200)) ∧
    (∀ st : Store, (submitScoreHandler st none).2 = 400) ∧
    (∀ (st : Store) (f : SubmitFields), st.ok = true →
      ((submitScoreHandler st (some f)).2 = 400 ↔
        ¬ validName (trimSpace (decodeSubmit f).name))) := by
  refine ⟨?_, fun _ => rfl, ?_⟩
  · intro st nm hok h
    rw [submit_accepts_valid st ⟨some nm, none, none, none⟩ hok h]
    simp [mkRecord, decodeSubmit]
  · intro st f hok
    by_cases h : validName (trimSpace (decodeSubmit f).name)
    · rw [submit_accepts_valid st f hok h]
      exact ⟨fun hc => by simp at hc, fun hc => (hc h).elim⟩
    · rw [submit_rejects_invalid st f h]
      exact ⟨fun _ => h, fun _ => rfl⟩

/-- C10 witness: submitting only the name `"A"` (all other fields absent)
to an empty reachable store persists the record with score 0, total 0,
percent 0. -/
theorem submit_missing_fields_default_witness :
    submitScoreHandler ⟨true, [], 0⟩ (some ⟨some ['A'], none, none, none⟩) =
      ({ Store.mk true [] 0 with
          records := [] ++ [⟨0, trimSpace ['A'], 0, 0, 0, [], 0⟩]
          nextId := 0 + 1 }, 200) :=
  submit_missing_fields_default.1 ⟨true, [], 0⟩ ['A'] rfl (by decide)

/-! ## Helper lemmas about the leaderboard and recent queries -/

lemma leaderboardLoop_filterMap :
    ∀ (rows : List (Option LBRow)) (n : Nat),
      (leaderboardLoop n rows).map LeaderboardEntry.toRow = rows.filterMap id
  | [], _ => rfl
  | none :: rest, n => by
    simp only [leaderboardLoop, List.filterMap_cons]
    exact leaderboardLoop_filterMap rest n
  | some r :: rest, n => by
    simp only [leaderboardLoop, List.filterMap_cons, List.map_cons]
    exact congrArg (List.cons r) (leaderboardLoop_filterMap rest (n + 1))

lemma recentLoop_filterMap :
    ∀ rows : List (Option ScoreRecord), recentLoop rows = rows.filterMap id
  | [] => rfl
  | none :: rest => by
    simp only [recentLoop, List.filterMap_cons]
    exact recentLoop_filterMap rest
  | some s :: rest => by
    simp only [recentLoop, List.filterMap_cons]
    exact congrArg (List.cons s) (recentLoop_filterMap rest)

lemma leaderboardLoop_ranks :
    ∀ (l : List LBRow) (n : Nat),
      (leaderboardLoop n (l.map some)).map (fun e => e.rank) =
        List.range' n l.length
  | [], _ => rfl
  | r :: rest, n => by
    simp only [List.map_cons, leaderboardLoop, List.length_cons, List.range'_succ]
    exact congrArg (List.cons n) (leaderboardLoop_ranks rest (n + 1))

lemma leaderboardLoop_length :
    ∀ (l : List LBRow) (n : Nat), (leaderboardLoop n (l.map some)).length = l.length
  | [], _ => rfl
  | _ :: rest, n => by
    simp only [List.map_cons, leaderboardLoop, List.length_cons]
    exact congrArg Nat.succ (leaderboardLoop_length rest (n + 1))

lemma queryAggregate_length (rs : List ScoreRecord) :
    (queryAggregate 10 rs).length = min 10 (namesOf rs).length := by
  unfold queryAggregate
  rw [List.length_take, (List.perm_insertionSort lbLE (aggregate rs)).length_eq]
  unfold aggregate
  rw [List.length_map]

/-- C4: the leaderboard query groups records by name, computes per name
sum(score), count(*) and avg(percent), orders by total_score descending
with ties broken by avg_percent descending, and returns at most 10 rows. -/
theorem leaderboard_aggregation :
    ∀ rs : List ScoreRecord,
      (queryAggregate 10 rs).length ≤ 10 ∧
      List.Sorted lbLE (queryAggregate 10 rs) ∧
      ∀ e ∈ queryAggregate 10 rs,
        e.name ∈ namesOf rs ∧
        e.total_score = sumScores rs e.name ∧
        e.tests_taken = countName rs e.name ∧
        e.avg_percent = avgPercent rs e.name := by
  intro rs
  refine ⟨?_, ?_, ?_⟩
  · rw [queryAggregate_length]
    exact Nat.min_le_left 10 _
  · exact (List.sorted_insertionSort lbLE (aggregate rs)).sublist
      (List.take_sublist 10 _)
  · intro e he
    have h1 : e ∈ List.insertionSort lbLE (aggregate rs) :=
      List.take_subset 10 _ he
    have h2 : e ∈ aggregate rs :=
      (List.perm_insertionSort lbLE (aggregate rs)).mem_iff.mp h1
    obtain ⟨n, hn, rfl⟩ := List.mem_map.mp h2
    exact ⟨hn, rfl, rfl, rfl⟩

/-- C4 witness: on a one-record store, the single leaderboard row carries
that name's sum, count and average. -/
theorem leaderboard_aggregation_witness :
    (queryAggregate 10 [⟨0, ['A'], 7, 10, 70, [], 0⟩]).length ≤ 10 ∧
    (aggRow [⟨0, ['A'], 7, 10, 70, [], 0⟩] ['A']).name ∈
      namesOf [⟨0, ['A'], 7, 10, 70, [], 0⟩] ∧
    (aggRow [⟨0, ['A'], 7, 10, 70, [], 0⟩] ['A']).total_score =
      sumScores [⟨0, ['A'], 7, 10, 70, [], 0⟩]
        (aggRow [⟨0, ['A'], 7, 10, 70, [], 0⟩] ['A']).name :=
  ⟨(leaderboard_aggregation [⟨0, ['A'], 7, 10, 70, [], 0⟩]).1,
   ((leaderboard_aggregation [⟨0, ['A'], 7, 10, 70, [], 0⟩]).2.2
      (aggRow [⟨0, ['A'], 7, 10, 70, [], 0⟩] ['A']) (List.Mem.head [])).1,
   ((leaderboard_aggregation [⟨0, ['A'], 7, 10, 70, [], 0⟩]).2.2
      (aggRow [⟨0, ['A'], 7, 10, 70, [], 0⟩] ['A']) (List.Mem.head [])).2.1⟩

/-- C5: the leaderboard handler assigns ranks exactly 1, 2, ..., k in the
order the entries are returned, where k = min(10, number of distinct names
with data); ranks are recomputed per request from the query result only. -/
theorem leaderboard_ranks_dense :
    ∀ st : Store,
      ((leaderboardEntries st).map (fun e => e.rank) =
        List.range' 1 (min 10 (namesOf st.records).length)) ∧
      (leaderboardEntries st).length = min 10 (namesOf st.records).length ∧
      (st.ok = true →
        leaderboardHandler st =
          (200, some (encodeNilSlice encodeEntry (leaderboardEntries st)))) := by
  intro st
  refine ⟨?_, ?_, ?_⟩
  · rw [show leaderboardEntries st =
        leaderboardLoop 1 ((queryAggregate 10 st.records).map some) from rfl,
      leaderboardLoop_ranks, queryAggregate_length]
  · rw [show leaderboardEntries st =
        leaderboardLoop 1 ((queryAggregate 10 st.records).map some) from rfl,
      leaderboardLoop_length, queryAggregate_length]
  · intro hok
    simp only [leaderboardHandler, hok, if_true]

/-- C5 witness: on a concrete two-name store the ranks are `[1, 2]` and
the 200 response carries the encoded entries. -/
theorem leaderboard_ranks_dense_witness :
    ((leaderboardEntries ⟨true, [⟨0, ['A'], 7, 10, 70, [], 0⟩,
        ⟨1, ['B'], 3, 10, 30, [], 1⟩], 2⟩).map (fun e => e.rank) =
      List.range' 1 (min 10 (namesOf [⟨0, ['A'], 7, 10, 70, [], 0⟩,
        ⟨1, ['B'], 3, 10, 30, [], 1⟩]).length)) ∧
    leaderboardHandler ⟨true, [⟨0, ['A'], 7, 10, 70, [], 0⟩,
        ⟨1, ['B'], 3, 10, 30, [], 1⟩], 2⟩ =
      (200, some (encodeNilSlice encodeEntry
        (leaderboardEntries ⟨true, [⟨0, ['A'], 7, 10, 70, [], 0⟩,
          ⟨1, ['B'], 3, 10, 30, [], 1⟩], 2⟩))) :=
  ⟨(leaderboard_ranks_dense ⟨true, [⟨0, ['A'], 7, 10, 70, [], 0⟩,
      ⟨1, ['B'], 3, 10, 30, [], 1⟩], 2⟩).1,
   (leaderboard_ranks_dense ⟨true, [⟨0, ['A'], 7, 10, 70, [], 0⟩,
      ⟨1, ['B'], 3, 10, 30, [], 1⟩], 2⟩).2.2 rfl⟩

/-- C7: in both scan loops a row whose scan fails is skipped individually:
the emitted entries are exactly the successfully scanned rows, in order,
and the loop never aborts the response. -/
theorem scan_failures_skipped :
    (∀ (rows : List (Option LBRow)) (n : Nat),
      (leaderboardLoop n rows).map LeaderboardEntry.toRow = rows.filterMap id) ∧
    (∀ rows : List (Option ScoreRecord), recentLoop rows = rows.filterMap id) :=
  ⟨leaderboardLoop_filterMap, recentLoop_filterMap⟩

lemma encodeNilSlice_ne_nil {α : Type} (f : α → Json) (l : List α) (h : l ≠ []) :
    encodeNilSlice f l = Json.arr (l.map f) := by
  match l with
  | [] => exact absurd rfl h
  | x :: xs => rfl

lemma leaderboardEntries_nil (st : Store) (h : st.records = []) :
    leaderboardEntries st = [] := by
  unfold leaderboardEntries queryAggregate aggregate namesOf
  rw [h]
  rfl

/-- C9 (counterexample): on an empty store the handler's slice is still the
nil slice, which `encoding/json` encodes as JSON `null` — the 200 body is
not a JSON array. -/
theorem leaderboard_empty_body_not_array :
    leaderboardHandler ⟨true, [], 0⟩ = (200, some Json.null) ∧
    Json.isArr Json.null = false :=
  ⟨rfl, rfl⟩

/-- C9 (amended): when the storage query succeeds, GET /api/leaderboard
responds 200; if at least one aggregate row exists the body is the JSON
array of the `{rank, name, total_score, tests_taken, avg_percent}` objects,
but when no records exist the body is JSON `null` (the encoding of a Go nil
slice), not the empty array. -/
theorem leaderboard_response_shape :
    ∀ st : Store, st.ok = true →
      (leaderboardHandler st).1 = 200 ∧
      (leaderboardEntries st ≠ [] →
        (leaderboardHandler st).2 =
          some (Json.arr ((leaderboardEntries st).map encodeEntry))) ∧
      (st.records = [] → (leaderboardHandler st).2 = some Json.null) := by
  intro st hok
  have hh : leaderboardHandler st =
      (200, some (encodeNilSlice encodeEntry (leaderboardEntries st))) := by
    simp only [leaderboardHandler, hok, if_true]
  refine ⟨by rw [hh], ?_, ?_⟩
  · intro hne
    rw [hh, encodeNilSlice_ne_nil encodeEntry _ hne]
  · intro hnil
    rw [hh, leaderboardEntries_nil st hnil]
    rfl

/-- C9 witness: `leaderboard_response_shape` applied to a concrete
reachable store with one record, where the body is the one-entry array. -/
theorem leaderboard_response_shape_witness :
    (leaderboardHandler ⟨true, [⟨0, ['A'], 7, 10, 70, [], 0⟩], 1⟩).1 = 200 ∧
    (leaderboardHandler ⟨true, [⟨0, ['A'], 7, 10, 70, [], 0⟩], 1⟩).2 =
      some (Json.arr ((leaderboardEntries
        ⟨true, [⟨0, ['A'], 7, 10, 70, [], 0⟩], 1⟩).map encodeEntry)) :=
  ⟨(leaderboard_response_shape ⟨true, [⟨0, ['A'], 7, 10, 70, [], 0⟩], 1⟩ rfl).1,
   (leaderboard_response_shape ⟨true, [⟨0, ['A'], 7, 10, 70, [], 0⟩], 1⟩ rfl).2.1
     (by decide)⟩

/-- C6: the recent-attempts query orders records by created_at descending
and returns at most 5; concretely, inserting R1 (A,1/2) then R2 (B,2/2)
then R3 (C,0/2) into an empty store, GET /api/recent returns [R3, R2, R1]. -/
theorem recent_query_ordered :
    (∀ rs : List ScoreRecord,
      (queryRecent 5 rs).length ≤ 5 ∧
      List.Sorted recentLE (queryRecent 5 rs)) ∧
    recentScoresHandler
        (submitScoreHandler
          ((submitScoreHandler
            ((submitScoreHandler (startup true)
              (some ⟨some ['A'], some 1, some 2, none⟩)).1)
            (some ⟨some ['B'], some 2, some 2, none⟩)).1)
          (some ⟨some ['C'], some 0, some 2, none⟩)).1 =
      (200, some [⟨2, ['C'], 0, 2, 0, [], 2⟩, ⟨1, ['B'], 2, 2, 100, [], 1⟩,
        ⟨0, ['A'], 1, 2, 50, [], 0⟩]) := by
  constructor
  · intro rs
    constructor
    · unfold queryRecent
      rw [List.length_take]
      exact Nat.min_le_left 5 _
    · exact (List.sorted_insertionSort recentLE rs).sublist
        (List.take_sublist 5 _)
  · simp +decide [submitScoreHandler, decodeSubmit, mkRecord, startup,
      recentScoresHandler, queryRecent, recentLE, recentLoop]
    norm_num

/-- C8: a failed database initialization is only logged, the process keeps
serving: the health check still answers 200, while on the unreachable
store every valid submission fails with 500 leaving the store unchanged,
and both read queries fail with 500. -/
theorem degraded_mode_uniform_500 :
    startup false = ⟨false, [], 0⟩ ∧
    ∀ st : Store, st.ok = false →
      (healthHandler st).1 = 200 ∧
      (∀ f : SubmitFields, validName (trimSpace (decodeSubmit f).name) →
        submitScoreHandler st (some f) = (st, 500)) ∧
      leaderboardHandler st = (500, none) ∧
      recentScoresHandler st = (500, none) := by
  refine ⟨rfl, ?_⟩
  intro st hok
  refine ⟨rfl, ?_, ?_, ?_⟩
  · intro f hv
    exact submit_valid_down st f hok hv
  · simp only [leaderboardHandler, hok, Bool.false_eq_true, if_false]
  · simp only [recentScoresHandler, hok, Bool.false_eq_true, if_false]

/-- C8 witness: on the store left by a failed startup, a concrete valid
submission returns 500 and the store is unchanged, while the health check
returns 200. -/
theorem degraded_mode_uniform_500_witness :
    (healthHandler ⟨false, [], 0⟩).1 = 200 ∧
    submitScoreHandler ⟨false, [], 0⟩
      (some ⟨some ['A'], some 1, some 2, none⟩) = (⟨false, [], 0⟩, 500) :=
  ⟨(degraded_mode_uniform_500.2 ⟨false, [], 0⟩ rfl).1,
   (degraded_mode_uniform_500.2 ⟨false, [], 0⟩ rfl).2.1
     ⟨some ['A'], some 1, some 2, none⟩ (by decide)⟩
